import Mathlib

/-!
Verification development for the dueling-game domain model
(`game/models.py`, `game/views.py`).

Modelling conventions:
* Python floats (`FloatField` race modifiers, the literals `0.5`, `0.2`,
  `1.4`) are embedded as exact rationals; Python `round` (half-to-even)
  is embedded as `roundHalfEven`.
* Django model instances are embedded as Lean structures; the many-to-many
  `inventory` relation is a `Finset Item`; nullable foreign keys are
  `Option`; `ValidationError` together with `transaction.atomic` rollback
  is embedded as `Except String`, an `.error` result leaving the caller
  with the unchanged pre-call entity.
* Row identity (Django compares model instances by primary key) is carried
  by an `id` field; items are immutable reference rows, so item values are
  compared structurally.
* Error message strings follow `models.py` with apostrophes dropped.
-/

/-- The three equipment slots of `Item.ITEM_SLOTS`. -/
inductive Slot
  | weapon
  | armor
  | accessory
deriving DecidableEq

/-- `Race` rows (`models.py` lines 24-35): the three stat modifiers,
stored in Python as floats, embedded as rationals. -/
structure Race where
  damage_modifier : ℚ
  protection_modifier : ℚ
  health_modifier : ℚ
deriving DecidableEq

/-- `Profession` rows (`models.py` lines 38-46). `id` is the primary key,
used for the many-to-many membership checks. -/
structure Profession where
  id : ℕ
  damage_base : ℕ
  protection_base : ℕ
  health_base : ℕ
deriving DecidableEq

/-- `Item` rows (`models.py` lines 49-97). `allowed_professions` holds the
primary keys of the professions allowed to use the item. -/
structure Item where
  id : ℕ
  price : ℕ
  level_required : ℕ
  slot : Slot
  bonus_damage : ℕ
  bonus_protection : ℕ
  bonus_health : ℕ
  allowed_professions : List ℕ
deriving DecidableEq

/-- `Item.sell_price` (`models.py` lines 92-94): integer floor division. -/
def Item.sell_price (i : Item) : ℕ := i.price / 2

/-- `Character` rows (`models.py` lines 106-158). The three derived stats
are stored as integers produced by rounding. -/
structure Character where
  id : ℕ
  owner : ℕ
  race : Race
  profession : Profession
  level : ℕ
  current_exp : ℕ
  gold : ℕ
  damage : ℤ
  protection : ℤ
  health : ℤ
  equipped_weapon : Option Item
  equipped_armor : Option Item
  equipped_accessory : Option Item
  inventory : Finset Item
deriving DecidableEq

/-- Python `round`: round half to even (bankers rounding). -/
def roundHalfEven (q : ℚ) : ℤ :=
  let f := ⌊q⌋
  let r := q - (f : ℚ)
  if r < 1 / 2 then f
  else if 1 / 2 < r then f + 1
  else if f % 2 = 0 then f else f + 1

/-- The equipment slot accessor `getattr(self, f"equipped_{slot}")`. -/
def getEquipped (c : Character) : Slot → Option Item
  | .weapon => c.equipped_weapon
  | .armor => c.equipped_armor
  | .accessory => c.equipped_accessory

/-- The equipment slot mutator `setattr(self, f"equipped_{slot}", v)`. -/
def setEquipped (c : Character) : Slot → Option Item → Character
  | .weapon, v => { c with equipped_weapon := v }
  | .armor, v => { c with equipped_armor := v }
  | .accessory, v => { c with equipped_accessory := v }

/-- `Character.recalculate_stats` (`models.py` lines 184-201): the base
stats from profession and level, the loop over the three equipped slots
adding item bonuses, then rounding after the race modifier. -/
def recalculate_stats (c : Character) : Character :=
  let base : ℚ × ℚ × ℚ :=
    ((c.profession.damage_base : ℚ) + (c.level : ℚ) * (5 / 10),
     (c.profession.protection_base : ℚ) + (c.level : ℚ) * (2 / 10),
     (c.profession.health_base : ℚ) + (c.level : ℚ) * 5)
  let acc :=
    [c.equipped_weapon, c.equipped_armor, c.equipped_accessory].foldl
      (fun acc it =>
        match it with
        | none => acc
        | some item =>
            (acc.1 + (item.bonus_damage : ℚ),
             acc.2.1 + (item.bonus_protection : ℚ),
             acc.2.2 + (item.bonus_health : ℚ)))
      base
  { c with
      damage := roundHalfEven (acc.1 * c.race.damage_modifier)
      protection := roundHalfEven (acc.2.1 * c.race.protection_modifier)
      health := roundHalfEven (acc.2.2 * c.race.health_modifier) }

/-- Sum of `bonus_damage` over the equipped items that are present. -/
def presentBonus (c : Character) (f : Item → ℕ) : ℕ :=
  (([c.equipped_weapon, c.equipped_armor, c.equipped_accessory].filterMap
    id).map f).sum

/-- The §4.1 stat formula as the spec writes it: damage. -/
def specFormulaDamage (c : Character) : ℤ :=
  roundHalfEven
    (((c.profession.damage_base : ℚ) + (c.level : ℚ) * (5 / 10) +
        (presentBonus c Item.bonus_damage : ℚ)) * c.race.damage_modifier)

/-- The §4.1 stat formula as the spec writes it: protection. -/
def specFormulaProtection (c : Character) : ℤ :=
  roundHalfEven
    (((c.profession.protection_base : ℚ) + (c.level : ℚ) * (2 / 10) +
        (presentBonus c Item.bonus_protection : ℚ)) *
      c.race.protection_modifier)

/-- The §4.1 stat formula as the spec writes it: health. -/
def specFormulaHealth (c : Character) : ℤ :=
  roundHalfEven
    (((c.profession.health_base : ℚ) + (c.level : ℚ) * 5 +
        (presentBonus c Item.bonus_health : ℚ)) * c.race.health_modifier)

/-- `Character.exp_for_level` (`models.py` lines 208-210):
`self.level ** 2 * 40`. -/
def exp_for_level (c : Character) : ℕ := c.level ^ 2 * 40

/-- The while-loop of `Character.add_exp` (`models.py` lines 215-217),
acting on the `(level, current_exp)` pair. The `0 < level` guard is a
totality condition of the embedding: for `level = 0` the threshold is `0`
and the Python loop would not terminate, while every `Character` has
`level ≥ 1` (default 1), where the guard is vacuous. -/
def addExpLoop (level cur : ℕ) : ℕ × ℕ :=
  if h : 0 < level ∧ level ^ 2 * 40 ≤ cur then
    addExpLoop (level + 1) (cur - level ^ 2 * 40)
  else (level, cur)
termination_by cur
decreasing_by
  have h1 : 0 < level := h.1
  have h2 : 0 < level ^ 2 * 40 := by positivity
  omega

/-- `Character.add_exp` (`models.py` lines 212-217): add the grant to
`current_exp`, then run the level-up loop. -/
def add_exp (c : Character) (exp : ℕ) : Character :=
  let r := addExpLoop c.level (c.current_exp + exp)
  { c with level := r.1, current_exp := r.2 }

/-- `Character.equip_item` (`models.py` lines 219-232): the three
precondition checks in source order, then — inside the transaction — move
a previously equipped item of the same slot back to the inventory, remove
the item from the inventory, set the slot, and `save()`
(which recalculates stats). -/
def equip_item (c : Character) (item : Item) : Except String Character :=
  if item ∉ c.inventory then
    .error "You dont own this item."
  else if c.profession.id ∉ item.allowed_professions then
    .error "This item doesnt match your profession."
  else if c.level < item.level_required then
    .error "Your level is not high enough."
  else
    match getEquipped c item.slot with
    | some prev =>
        .ok (recalculate_stats (setEquipped
          { c with inventory := (insert prev c.inventory).erase item }
          item.slot (some item)))
    | none =>
        .ok (recalculate_stats (setEquipped
          { c with inventory := c.inventory.erase item }
          item.slot (some item)))

/-- `Character.unequip_item` (`models.py` lines 234-240): fail unless the
item is the one equipped in its slot; otherwise add it to the inventory,
clear the slot, and `save()`. -/
def unequip_item (c : Character) (item : Item) : Except String Character :=
  if some item ≠ getEquipped c item.slot then
    .error "Item is not equipped."
  else
    let c1 := { c with inventory := insert item c.inventory }
    let c2 := setEquipped c1 item.slot none
    .ok (recalculate_stats c2)

/-- `Character.buy_item` (`models.py` lines 242-253): fail when the item
is already equipped in its slot or already in the inventory, or when the
price exceeds the gold; otherwise add it to the inventory, pay, and
`save()`. -/
def buy_item (c : Character) (item : Item) : Except String Character :=
  if getEquipped c item.slot = some item ∨ item ∈ c.inventory then
    .error "You already have that item."
  else if c.gold < item.price then
    .error "You dont have enough gold."
  else
    let c1 :=
      { c with inventory := insert item c.inventory,
               gold := c.gold - item.price }
    .ok (recalculate_stats c1)

/-- `Character.sell_item` (`models.py` lines 255-263): fail unless the
item is in the inventory; otherwise remove it, credit `sell_price`, and
`save()`. -/
def sell_item (c : Character) (item : Item) : Except String Character :=
  if item ∉ c.inventory then
    .error "You dont have that item in your inventory."
  else
    let c1 :=
      { c with inventory := c.inventory.erase item,
               gold := c.gold + item.sell_price }
    .ok (recalculate_stats c1)

/-- `Battle` rows (`models.py` lines 274-301): the four nullable character
references and the two reward fields (both defaulting to 0). -/
structure Battle where
  attacker : Option Character
  defender : Option Character
  winner : Option Character
  loser : Option Character
  gold_reward : ℕ
  exp_reward : ℕ
deriving DecidableEq

/-- Django compares model instances by primary key; `==` between two
possibly-null character references (`None == None` is true in Python). -/
def optSamePk : Option Character → Option Character → Prop
  | none, none => True
  | some a, some b => a.id = b.id
  | _, _ => False

instance : DecidableRel optSamePk := fun a b => by
  cases a <;> cases b <;> simp only [optSamePk] <;> infer_instance

/-- `Battle.clean` (`models.py` lines 306-317), in the `_state.adding`
branch (battle creation): reject a self-battle and reject a winner or
loser outside the participant pair. -/
def Battle.clean (b : Battle) : Except String Unit :=
  if optSamePk b.attacker b.defender then
    .error "You cant battle yourself."
  else if ¬(optSamePk b.winner b.attacker ∨ optSamePk b.winner b.defender)
      ∨ ¬(optSamePk b.loser b.attacker ∨ optSamePk b.loser b.defender) then
    .error "Winner or loser must be either attacker or defender."
  else
    .ok ()

/-- `Battle.calculate_winner` (`models.py` lines 323-337), with the random
`randrange(0, 2)` pick passed in as `winner_index`. The winner gains the
gold reward, `exp_reward` is INCREMENTED (`+=` in the source) by
`loser.level * 7 + 5`, the winner receives `add_exp(exp_reward)` and is
saved (stats recalculated), and the battle is saved, which runs
`full_clean` and hence `Battle.clean`; a `ValidationError` there rolls the
transaction back, so a failing clean yields an error and no record. The
non-negative Python int `round(loser.level * 1.4) + 2` is embedded through
`Int.toNat`. -/
def calculate_winner (b : Battle) (winner_index : Fin 2) :
    Except String Battle :=
  match b.attacker, b.defender with
  | some attacker, some defender =>
    let winner := if winner_index = 0 then attacker else defender
    let loser := if winner_index = 0 then defender else attacker
    let gold_reward := (roundHalfEven ((loser.level : ℚ) * (14 / 10))).toNat + 2
    let winner1 := { winner with gold := winner.gold + gold_reward }
    let exp_reward := b.exp_reward + (loser.level * 7 + 5)
    let winner2 := recalculate_stats (add_exp winner1 exp_reward)
    let b1 :=
      { b with
          winner := some winner2
          loser := some loser
          gold_reward := gold_reward
          exp_reward := exp_reward }
    match b1.clean with
    | .error e => .error e
    | .ok _ => .ok b1
  | _, _ => .error "You need 2 participants."

/-- The `diff` annotation of `BattleCreateView.get_opponents`
(`views.py` line 444): `Abs(F("level") - self.character.level)`. -/
def diffOf (me c : Character) : ℕ := ((c.level : ℤ) - (me.level : ℤ)).natAbs

/-- The queryset filter of `get_opponents` (`views.py` lines 437-443):
level within `(me.level - 25, me.level + 25)` — computed over the
integers, as in Python — and owner different from the requesting user
(the owner of the initiator). -/
def eligibleOpponent (me c : Character) : Bool :=
  decide ((me.level : ℤ) - 25 ≤ (c.level : ℤ)
    ∧ (c.level : ℤ) ≤ (me.level : ℤ) + 25 ∧ c.owner ≠ me.owner)

/-- The `order_by("diff", "level")` key (`views.py` line 445): absolute
level difference ascending, ties broken by level ascending. -/
def rankLE (me a b : Character) : Bool :=
  decide (diffOf me a < diffOf me b
    ∨ (diffOf me a = diffOf me b ∧ a.level ≤ b.level))

/-- Ordered insertion for `sortByRank`. -/
def insertRanked (me x : Character) : List Character → List Character
  | [] => [x]
  | y :: ys =>
      if rankLE me x y then x :: y :: ys else y :: insertRanked me x ys

/-- Sorting by the `order_by("diff", "level")` key. -/
def sortByRank (me : Character) : List Character → List Character
  | [] => []
  | x :: xs => insertRanked me x (sortByRank me xs)

/-- The candidate pool of `get_opponents` (`views.py` lines 436-447):
filter the population, sort by `(diff, level)`, cap at 10. -/
def candidatePool (me : Character) (population : List Character) :
    List Character :=
  (sortByRank me (population.filter (eligibleOpponent me))).take 10

/-- The bucket-expansion while-loop of `get_opponents` (`views.py`
lines 456-460), with an explicit iteration bound. The Python loop stops
once `opponents` is no smaller than 3 or no smaller than `candidates`;
since every candidate has `diff ≤ 25`, after the bucket for difference 25
has been appended `opponents` holds every candidate and the loop exits, so
at most 25 iterations ever run and a fuel of 26 is never exhausted. -/
def expandBuckets (me : Character) (candidates : List Character) :
    ℕ → List Character → ℕ → List Character
  | 0, opponents, _ => opponents
  | fuel + 1, opponents, diff =>
    if opponents.length < 3 ∧ opponents.length < candidates.length then
      expandBuckets me candidates fuel
        (opponents ++ candidates.filter (fun o => diffOf me o = diff + 1))
        (diff + 1)
    else opponents

/-- `BattleCreateView.get_opponents` (`views.py` lines 435-461) over an
explicit population list standing for the character table. -/
def get_opponents (me : Character) (population : List Character) :
    List Character :=
  let candidates := candidatePool me population
  if candidates = [] then []
  else
    expandBuckets me candidates 26
      (candidates.filter (fun o => diffOf me o = 0)) 0

/-- The §3 invariant: no equipped item is also a member of the inventory
set. -/
def exclusiveEquipment (c : Character) : Prop :=
  ∀ (s : Slot) (i : Item), getEquipped c s = some i → i ∉ c.inventory

/-- Well-formedness enforced by the `limit_choices_to` constraints on the
three equipment foreign keys (`models.py` lines 131-155): each equipment
slot only ever holds an item of its own slot kind. -/
def slotConsistent (c : Character) : Prop :=
  ∀ (s : Slot) (i : Item), getEquipped c s = some i → i.slot = s

/-- The character visible after an operation: the transaction result on
success, the unchanged pre-call character after a rolled-back validation
error. -/
def afterOp (c : Character) (r : Except String Character) : Character :=
  match r with
  | .ok c' => c'
  | .error _ => c

/-- A newly created `Character` with the field defaults of `models.py`
lines 106-158: level 1, no experience, no gold, empty inventory, the
placeholder stats, `equipped_armor` and `equipped_accessory` null, and
`equipped_weapon` defaulting to the `Item` row with primary key 1
(`default=1` on the foreign key) — `item1` stands for that row. -/
def newCharacter (id owner : ℕ) (race : Race) (profession : Profession)
    (item1 : Item) : Character where
  id := id
  owner := owner
  race := race
  profession := profession
  level := 1
  current_exp := 0
  gold := 0
  damage := 1
  health := 100
  protection := 1
  equipped_weapon := some item1
  equipped_armor := none
  equipped_accessory := none
  inventory := ∅

/-- `Character.objects.create(...)` runs `save()`, which recalculates the
stats of the new character (`models.py` lines 203-206). -/
def createdCharacter (id owner : ℕ) (race : Race)
    (profession : Profession) (item1 : Item) : Character :=
  recalculate_stats (newCharacter id owner race profession item1)

/-- The race of the worked example in §8: all three modifiers 1. -/
def neutralRace : Race where
  damage_modifier := 1
  protection_modifier := 1
  health_modifier := 1

/-- The profession of the worked example in §8: all three bases 100. -/
def exampleProfession : Profession where
  id := 1
  damage_base := 100
  protection_base := 100
  health_base := 100

/-- The weapon of the worked example in §8: `bonus_damage = 222`. -/
def exampleWeapon : Item where
  id := 5
  price := 10
  level_required := 1
  slot := .weapon
  bonus_damage := 222
  bonus_protection := 0
  bonus_health := 0
  allowed_professions := [1]

/-- The level-10 character of the worked stat example in §8. -/
def exampleStatChar : Character where
  id := 1
  owner := 1
  race := neutralRace
  profession := exampleProfession
  level := 10
  current_exp := 0
  gold := 0
  damage := 1
  health := 100
  protection := 1
  equipped_weapon := some exampleWeapon
  equipped_armor := none
  equipped_accessory := none
  inventory := ∅

/-- A fresh level-1 character with no experience, for the §8 example. -/
def levelOneChar : Character :=
  newCharacter 2 1 neutralRace exampleProfession exampleWeapon

/-- The slot-loop of `recalculate_stats` computes the same stats as the
closed-form §4.1 formula. -/
theorem recalculate_stats_formula (c : Character) :
    (recalculate_stats c).damage = specFormulaDamage c ∧
    (recalculate_stats c).protection = specFormulaProtection c ∧
    (recalculate_stats c).health = specFormulaHealth c := by
  rcases hw : c.equipped_weapon with _ | w <;>
      rcases ha : c.equipped_armor with _ | a <;>
        rcases hx : c.equipped_accessory with _ | x <;>
          simp only [recalculate_stats, specFormulaDamage,
            specFormulaProtection, specFormulaHealth, presentBonus, hw, ha,
            hx, List.foldl_cons, List.foldl_nil, List.filterMap_cons,
            List.filterMap_nil, List.map_cons, List.map_nil,
            List.sum_cons, List.sum_nil, id] <;>
          refine ⟨?_, ?_, ?_⟩ <;>
          first
            | rfl
            | (congr 1; push_cast; ring)

/-- C1: `recalculate_stats` computes each of the three stats by the §4.1
formula — base from profession plus the level term plus the sum of the
present equipped items' bonuses, multiplied by the race modifier and
rounded — and on the §8 worked example (damage base 100, modifier 1,
level 10, weapon bonus 222) yields damage 327. The embedding
`recalculate_stats : Character → Character` is a total function, so the
computation never fails. -/
theorem recalculate_stats_matches_spec_formula :
    (∀ c : Character,
      (recalculate_stats c).damage = specFormulaDamage c ∧
      (recalculate_stats c).protection = specFormulaProtection c ∧
      (recalculate_stats c).health = specFormulaHealth c) ∧
    (recalculate_stats exampleStatChar).damage = 327 := by
  refine ⟨recalculate_stats_formula, ?_⟩
  norm_num [recalculate_stats, exampleStatChar, exampleWeapon,
    exampleProfession, neutralRace, roundHalfEven]

/-- Invariant of the `add_exp` while-loop: starting from a positive
level, the loop keeps the level positive and non-decreasing and exits
with the experience strictly below the threshold of the final level. -/
theorem addExpLoop_post (cur : ℕ) :
    ∀ level, 1 ≤ level →
      1 ≤ (addExpLoop level cur).1 ∧
      level ≤ (addExpLoop level cur).1 ∧
      (addExpLoop level cur).2 < (addExpLoop level cur).1 ^ 2 * 40 := by
  induction cur using Nat.strong_induction_on with
  | _ cur ih =>
    intro level hlevel
    rw [addExpLoop]
    split
    · rename_i h
      have hpos : 0 < level ^ 2 * 40 := by positivity
      have hlt : cur - level ^ 2 * 40 < cur := by omega
      have := ih (cur - level ^ 2 * 40) hlt (level + 1) (by omega)
      exact ⟨this.1, by omega, this.2.2⟩
    · rename_i h
      refine ⟨hlevel, le_refl _, ?_⟩
      simp only [not_and, not_le] at h
      exact h (by omega)

theorem recalculate_stats_id (c : Character) :
    (recalculate_stats c).id = c.id := rfl

theorem recalculate_stats_gold (c : Character) :
    (recalculate_stats c).gold = c.gold := rfl

theorem recalculate_stats_level (c : Character) :
    (recalculate_stats c).level = c.level := rfl

theorem recalculate_stats_current_exp (c : Character) :
    (recalculate_stats c).current_exp = c.current_exp := rfl

theorem recalculate_stats_inventory (c : Character) :
    (recalculate_stats c).inventory = c.inventory := rfl

theorem recalculate_stats_weapon (c : Character) :
    (recalculate_stats c).equipped_weapon = c.equipped_weapon := rfl

theorem recalculate_stats_armor (c : Character) :
    (recalculate_stats c).equipped_armor = c.equipped_armor := rfl

theorem recalculate_stats_accessory (c : Character) :
    (recalculate_stats c).equipped_accessory = c.equipped_accessory := rfl

theorem recalculate_stats_getEquipped (c : Character) (s : Slot) :
    getEquipped (recalculate_stats c) s = getEquipped c s := by
  cases s <;> rfl

theorem add_exp_id (c : Character) (e : ℕ) : (add_exp c e).id = c.id := rfl

theorem add_exp_gold (c : Character) (e : ℕ) :
    (add_exp c e).gold = c.gold := rfl

theorem add_exp_inventory (c : Character) (e : ℕ) :
    (add_exp c e).inventory = c.inventory := rfl

/-- C3: `add_exp` adds the grant to `current_exp` and then repeatedly
subtracts `exp_for_level` thresholds while they are reached, incrementing
the level each time; for a character of positive level the loop terminates
with `current_exp < exp_for_level` and a level no smaller than before;
`exp_for_level` at level 1 is 40; and a level-1 character with no
experience gaining 15450 experience ends at level 11. -/
theorem add_exp_post (c : Character) (exp : ℕ) (h : 1 ≤ c.level) :
    ((add_exp c exp).current_exp < exp_for_level (add_exp c exp) ∧
      c.level ≤ (add_exp c exp).level) ∧
    exp_for_level levelOneChar = 40 ∧
    (add_exp levelOneChar 15450).level = 11 ∧
    (add_exp levelOneChar 15450).current_exp = 50 := by
  refine ⟨?_, by norm_num [exp_for_level, levelOneChar, newCharacter], ?_⟩
  · have hp := addExpLoop_post (c.current_exp + exp) c.level h
    exact ⟨hp.2.2, hp.2.1⟩
  · have hloop : addExpLoop 1 15450 = (11, 50) := by
      rw [addExpLoop]; norm_num
      rw [addExpLoop]; norm_num
      rw [addExpLoop]; norm_num
      rw [addExpLoop]; norm_num
      rw [addExpLoop]; norm_num
      rw [addExpLoop]; norm_num
      rw [addExpLoop]; norm_num
      rw [addExpLoop]; norm_num
      rw [addExpLoop]; norm_num
      rw [addExpLoop]; norm_num
      rw [addExpLoop]; norm_num
    constructor <;>
      simp [add_exp, levelOneChar, newCharacter, hloop]

/-- Witness for `add_exp_post` at a concrete level-1 character. -/
theorem add_exp_post_witness :
    1 ≤ levelOneChar.level ∧
    ((add_exp levelOneChar 5).current_exp <
        exp_for_level (add_exp levelOneChar 5) ∧
      levelOneChar.level ≤ (add_exp levelOneChar 5).level) :=
  ⟨by decide, (add_exp_post levelOneChar 5 (by decide)).1⟩

/-- A level-1 attacker owned by player 1, no equipment. -/
def attackerChar : Character where
  id := 1
  owner := 1
  race := neutralRace
  profession := exampleProfession
  level := 1
  current_exp := 0
  gold := 0
  damage := 1
  health := 100
  protection := 1
  equipped_weapon := none
  equipped_armor := none
  equipped_accessory := none
  inventory := ∅

/-- A level-1 defender owned by player 2, no equipment. -/
def defenderChar : Character where
  id := 2
  owner := 2
  race := neutralRace
  profession := exampleProfession
  level := 1
  current_exp := 0
  gold := 0
  damage := 1
  health := 100
  protection := 1
  equipped_weapon := none
  equipped_armor := none
  equipped_accessory := none
  inventory := ∅

/-- A battle between the two fixture characters whose `exp_reward` field
already holds 7 before resolution. -/
def staleBattle : Battle where
  attacker := some attackerChar
  defender := some defenderChar
  winner := none
  loser := none
  gold_reward := 0
  exp_reward := 7

/-- A battle between the two fixture characters with the default
`exp_reward = 0`, as produced by the battle-creation flow. -/
def freshBattle : Battle where
  attacker := some attackerChar
  defender := some defenderChar
  winner := none
  loser := none
  gold_reward := 0
  exp_reward := 0

/-- A battle with a missing defender. -/
def soloBattle : Battle where
  attacker := some attackerChar
  defender := none
  winner := none
  loser := none
  gold_reward := 0
  exp_reward := 0

/-- Counterexample to C2 as stated: `calculate_winner` executes
`self.exp_reward += loser.level * 7 + 5` (`models.py` line 332), so on a
battle whose `exp_reward` field already holds 7 the resolved record
carries 7 + (1 * 7 + 5) = 19, not the fresh value 1 * 7 + 5 = 12 the
claim requires. -/
theorem battle_exp_reward_accumulates :
    Except.map Battle.exp_reward (calculate_winner staleBattle 0) =
      .ok 19 ∧ (19 : ℕ) ≠ 1 * 7 + 5 := by
  constructor
  · simp [calculate_winner, staleBattle, Battle.clean, optSamePk,
      recalculate_stats_id, add_exp_id, attackerChar, defenderChar,
      Except.map]
  · decide

/-- C2 as amended: on battle resolution `gold_reward` is computed fresh as
`round(loser.level * 1.4) + 2` and added to the gold of the winner, and the
winner is granted the recorded experience reward through `add_exp`; the
recorded `exp_reward`, however, is INCREMENTED by `loser.level * 7 + 5`
over whatever value the field already held, so it equals the fresh value
`loser.level * 7 + 5` exactly when the pre-existing value is 0 — as it is
for every battle created through the documented one-shot flow. -/
theorem calculate_winner_rewards (b : Battle) (a d : Character) (i : Fin 2)
    (ha : b.attacker = some a) (hd : b.defender = some d)
    (hid : a.id ≠ d.id) :
    ∃ b', calculate_winner b i = .ok b' ∧
      b'.gold_reward =
        (roundHalfEven
          (((if i = 0 then d else a).level : ℚ) * (14 / 10))).toNat + 2 ∧
      b'.exp_reward =
        b.exp_reward + ((if i = 0 then d else a).level * 7 + 5) ∧
      (b.exp_reward = 0 →
        b'.exp_reward = (if i = 0 then d else a).level * 7 + 5) ∧
      b'.winner = some (recalculate_stats (add_exp
        { (if i = 0 then a else d) with
            gold := (if i = 0 then a else d).gold + b'.gold_reward }
        b'.exp_reward)) ∧
      b'.loser = some (if i = 0 then d else a) := by
  have hclean : ∀ b1 : Battle, b1.attacker = some a →
      b1.defender = some d →
      (optSamePk b1.winner b1.attacker ∨ optSamePk b1.winner b1.defender) →
      (optSamePk b1.loser b1.attacker ∨ optSamePk b1.loser b1.defender) →
      b1.clean = .ok () := by
    intro b1 h1 h2 h3 h4
    rw [h1, h2] at h3 h4
    simp only [Battle.clean, h1, h2]
    rw [if_neg (by simp [optSamePk, hid]),
      if_neg (by push_neg; exact ⟨h3, h4⟩)]
  by_cases hi : i = 0 <;>
    simp only [calculate_winner, ha, hd, hi, if_pos, if_neg,
      reduceIte] <;>
    rw [hclean _ rfl rfl
      (by simp [optSamePk, recalculate_stats_id, add_exp_id])
      (by simp [optSamePk])] <;>
    exact ⟨_, rfl, rfl, rfl, fun h => by simp [h], rfl, rfl⟩

/-- Witness for `calculate_winner_rewards` on the fixture battle. -/
theorem calculate_winner_rewards_witness :
    freshBattle.attacker = some attackerChar ∧
    freshBattle.defender = some defenderChar ∧
    attackerChar.id ≠ defenderChar.id ∧
    ∃ b', calculate_winner freshBattle 0 = .ok b' ∧
      b'.exp_reward = defenderChar.level * 7 + 5 := by
  refine ⟨rfl, rfl, by decide, ?_⟩
  obtain ⟨b', hok, _, _, hfresh, _⟩ :=
    calculate_winner_rewards freshBattle attackerChar defenderChar 0
      rfl rfl (by decide)
  exact ⟨b', hok, by simpa using hfresh rfl⟩

/-- C5: a successful `calculate_winner` yields a record whose winner and
loser are exactly the two participants in some order (hence winner and
loser differ); `Battle.clean` rejects at save time any battle whose
attacker equals its defender, or whose winner or loser is outside the
participant pair; and resolving a battle with a missing participant fails
with an error, creating no record. -/
theorem battle_resolution_invariants :
    (∀ (b : Battle) (i : Fin 2) (b' : Battle),
        calculate_winner b i = .ok b' →
        ∃ a d w l,
          b'.attacker = some a ∧ b'.defender = some d ∧
          b'.winner = some w ∧ b'.loser = some l ∧
          ((w.id = a.id ∧ l.id = d.id) ∨ (w.id = d.id ∧ l.id = a.id)) ∧
          w.id ≠ l.id) ∧
    (∀ b : Battle, optSamePk b.attacker b.defender →
        ∃ m, b.clean = .error m) ∧
    (∀ b : Battle,
        (¬(optSamePk b.winner b.attacker ∨ optSamePk b.winner b.defender) ∨
          ¬(optSamePk b.loser b.attacker ∨ optSamePk b.loser b.defender)) →
        ∃ m, b.clean = .error m) ∧
    (∀ (b : Battle) (i : Fin 2),
        (b.attacker = none ∨ b.defender = none) →
        ∃ m, calculate_winner b i = .error m) := by
  refine ⟨?_, ?_, ?_, ?_⟩
  · intro b i b' h
    rcases ha : b.attacker with _ | a <;> rcases hd : b.defender with _ | d <;>
      simp only [calculate_winner, ha, hd] at h
    · exact Except.noConfusion h
    · exact Except.noConfusion h
    · exact Except.noConfusion h
    split at h
    · exact absurd h (by simp)
    · rename_i heq
      obtain rfl : _ = b' := by injection h
      have hne : ¬ optSamePk (some a) (some d) := by
        by_contra hcon
        simp only [Battle.clean, ha, hd] at heq
        rw [if_pos hcon] at heq
        exact absurd heq (by simp)
      simp only [optSamePk] at hne
      by_cases hi : i = 0
      · refine ⟨a, d, _, _, rfl, rfl, rfl, rfl, ?_, ?_⟩ <;>
          simp [hi, recalculate_stats_id, add_exp_id, hne]
      · refine ⟨a, d, _, _, rfl, rfl, rfl, rfl, ?_, ?_⟩
        · simp [hi, recalculate_stats_id, add_exp_id]
        · simp [hi, recalculate_stats_id, add_exp_id]
          omega
  · intro b h
    refine ⟨"You cant battle yourself.", ?_⟩
    simp only [Battle.clean]
    rw [if_pos h]
  · intro b h
    simp only [Battle.clean]
    by_cases h1 : optSamePk b.attacker b.defender
    · rw [if_pos h1]
      exact ⟨_, rfl⟩
    · rw [if_neg h1, if_pos h]
      exact ⟨_, rfl⟩
  · intro b i h
    rcases ha : b.attacker with _ | a <;>
      rcases hd : b.defender with _ | d <;>
        simp_all [calculate_winner]

/-- Witness for `battle_resolution_invariants` on a one-participant
battle. -/
theorem battle_resolution_invariants_witness :
    (soloBattle.attacker = none ∨ soloBattle.defender = none) ∧
    ∃ m, calculate_winner soloBattle 0 = .error m :=
  ⟨Or.inr rfl,
    battle_resolution_invariants.2.2.2 soloBattle 0 (Or.inr rfl)⟩

theorem getEquipped_setEquipped_same (c : Character) (s : Slot)
    (v : Option Item) : getEquipped (setEquipped c s v) s = v := by
  cases s <;> rfl

theorem getEquipped_setEquipped_ne (c : Character) (s s' : Slot)
    (v : Option Item) (h : s ≠ s') :
    getEquipped (setEquipped c s' v) s = getEquipped c s := by
  cases s <;> cases s' <;> simp_all [getEquipped, setEquipped]

theorem setEquipped_inventory (c : Character) (s : Slot)
    (v : Option Item) : (setEquipped c s v).inventory = c.inventory := by
  cases s <;> rfl

theorem setEquipped_gold (c : Character) (s : Slot) (v : Option Item) :
    (setEquipped c s v).gold = c.gold := by
  cases s <;> rfl

theorem getEquipped_set_inventory (c : Character) (inv : Finset Item)
    (s : Slot) :
    getEquipped { c with inventory := inv } s = getEquipped c s := by
  cases s <;> rfl

theorem getEquipped_set_inventory_gold (c : Character)
    (inv : Finset Item) (g : ℕ) (s : Slot) :
    getEquipped { c with inventory := inv, gold := g } s =
      getEquipped c s := by
  cases s <;> rfl

/-- C6: each of the four inventory operations checks all of its
preconditions before mutating anything, so a call with any violated
precondition returns a validation error; in the `Except` embedding of the
transactional semantics an error result leaves the character of the caller —
equipped slots, inventory, gold, level, experience, and stats — exactly
as it was before the call. -/
theorem ops_fail_on_violated_preconditions (c : Character) (item : Item) :
    ((item ∉ c.inventory ∨ c.profession.id ∉ item.allowed_professions ∨
        c.level < item.level_required) →
      ∃ m, equip_item c item = .error m) ∧
    (some item ≠ getEquipped c item.slot →
      ∃ m, unequip_item c item = .error m) ∧
    ((getEquipped c item.slot = some item ∨ item ∈ c.inventory ∨
        c.gold < item.price) →
      ∃ m, buy_item c item = .error m) ∧
    (item ∉ c.inventory → ∃ m, sell_item c item = .error m) := by
  refine ⟨?_, ?_, ?_, ?_⟩
  · intro h
    simp only [equip_item]
    by_cases h1 : item ∉ c.inventory
    · rw [if_pos h1]
      exact ⟨_, rfl⟩
    · rw [if_neg h1]
      by_cases h2 : c.profession.id ∉ item.allowed_professions
      · rw [if_pos h2]
        exact ⟨_, rfl⟩
      · rw [if_neg h2]
        by_cases h3 : c.level < item.level_required
        · rw [if_pos h3]
          exact ⟨_, rfl⟩
        · rcases h with h | h | h
          · exact absurd h h1
          · exact absurd h h2
          · exact absurd h h3
  · intro h
    simp only [unequip_item]
    rw [if_pos h]
    exact ⟨_, rfl⟩
  · intro h
    simp only [buy_item]
    by_cases h1 : getEquipped c item.slot = some item ∨ item ∈ c.inventory
    · rw [if_pos h1]
      exact ⟨_, rfl⟩
    · rw [if_neg h1]
      by_cases h2 : c.gold < item.price
      · rw [if_pos h2]
        exact ⟨_, rfl⟩
      · push_neg at h1
        rcases h with h | h | h
        · exact absurd h h1.1
        · exact absurd h h1.2
        · exact absurd h h2
  · intro h
    simp only [sell_item]
    rw [if_pos h]
    exact ⟨_, rfl⟩

/-- Witness for `ops_fail_on_violated_preconditions`: equipping an item
that is not in the (empty) inventory fails. -/
theorem ops_fail_on_violated_preconditions_witness :
    (exampleWeapon ∉ attackerChar.inventory ∨
      attackerChar.profession.id ∉ exampleWeapon.allowed_professions ∨
      attackerChar.level < exampleWeapon.level_required) ∧
    ∃ m, equip_item attackerChar exampleWeapon = .error m :=
  ⟨Or.inl (by decide),
    (ops_fail_on_violated_preconditions attackerChar exampleWeapon).1
      (Or.inl (by decide))⟩

/-- C7: when the equip preconditions hold (the item is in the inventory —
which under the §3 mutual-exclusivity invariant means it is not the item
already equipped in the slot — the profession is allowed and the level
requirement is met), `equip_item` succeeds, the slot now holds the item,
the item has left the inventory, any previously equipped item of that
slot is now in the inventory (no owned item is lost), and the stats of
the result are the §4.1 formula of its new equipment. -/
theorem equip_item_success (c : Character) (item : Item)
    (hinv : item ∈ c.inventory)
    (hprof : c.profession.id ∈ item.allowed_professions)
    (hlvl : item.level_required ≤ c.level)
    (hslot : getEquipped c item.slot ≠ some item) :
    ∃ c', equip_item c item = .ok c' ∧
      getEquipped c' item.slot = some item ∧
      item ∉ c'.inventory ∧
      (∀ prev, getEquipped c item.slot = some prev → prev ∈ c'.inventory) ∧
      c'.damage = specFormulaDamage c' ∧
      c'.protection = specFormulaProtection c' ∧
      c'.health = specFormulaHealth c' := by
  have hfail : ¬ item ∉ c.inventory := not_not_intro hinv
  have hfail2 : ¬ c.profession.id ∉ item.allowed_professions :=
    not_not_intro hprof
  have hfail3 : ¬ c.level < item.level_required := by omega
  simp only [equip_item, if_neg hfail, if_neg hfail2, if_neg hfail3]
  rcases hprev : getEquipped c item.slot with _ | p <;>
    refine ⟨_, rfl, ?_, ?_, ?_,
      (recalculate_stats_formula _).1, (recalculate_stats_formula _).2.1,
      (recalculate_stats_formula _).2.2⟩ <;>
    simp only [recalculate_stats_getEquipped, recalculate_stats_inventory,
      getEquipped_setEquipped_same, setEquipped_inventory]
  · exact Finset.not_mem_erase _ _
  · intro prev hp
    exact absurd hp (by simp)
  · exact Finset.not_mem_erase _ _
  · intro prev hp
    obtain rfl : p = prev := by injection hp
    have hne : p ≠ item := fun he => hslot (he ▸ hprev)
    exact Finset.mem_erase.2 ⟨hne, Finset.mem_insert_self _ _⟩

/-- Witness for `equip_item_success` on a character whose inventory holds
the example weapon. -/
theorem equip_item_success_witness :
    (exampleWeapon ∈
        ({ attackerChar with
            inventory := {exampleWeapon} } : Character).inventory ∧
      ({ attackerChar with
          inventory := {exampleWeapon} } : Character).profession.id ∈
        exampleWeapon.allowed_professions ∧
      exampleWeapon.level_required ≤
        ({ attackerChar with
            inventory := {exampleWeapon} } : Character).level ∧
      getEquipped
          ({ attackerChar with
              inventory := {exampleWeapon} } : Character)
          exampleWeapon.slot ≠ some exampleWeapon) ∧
    ∃ c', equip_item
        ({ attackerChar with
            inventory := {exampleWeapon} } : Character) exampleWeapon =
      .ok c' ∧
      getEquipped c' exampleWeapon.slot = some exampleWeapon := by
  refine ⟨⟨by decide, by decide, by decide, by decide⟩, ?_⟩
  obtain ⟨c', hok, hslot, _⟩ :=
    equip_item_success
      ({ attackerChar with inventory := {exampleWeapon} } : Character)
      exampleWeapon (by decide) (by decide) (by decide) (by decide)
  exact ⟨c', hok, hslot⟩

theorem sell_item_eq (c : Character) (item : Item)
    (h : item ∈ c.inventory) :
    sell_item c item = .ok (recalculate_stats
      { c with inventory := c.inventory.erase item,
               gold := c.gold + item.sell_price }) := by
  simp only [sell_item, if_neg (not_not_intro h)]

/-- C8: `sell_price` is the floor of half the price for every item, and
for a character with enough gold that neither owns nor has equipped the
item, buying and then selling it restores the original inventory and
costs exactly `price - price / 2` gold. -/
theorem buy_sell_roundtrip (c : Character) (item : Item)
    (hgold : item.price ≤ c.gold)
    (hinv : item ∉ c.inventory)
    (heq : getEquipped c item.slot ≠ some item) :
    (∀ i : Item, i.sell_price = i.price / 2) ∧
    ∃ c1 c2, buy_item c item = .ok c1 ∧ sell_item c1 item = .ok c2 ∧
      c2.inventory = c.inventory ∧
      c2.gold = c.gold - (item.price - item.price / 2) := by
  refine ⟨fun _ => rfl, ?_⟩
  have hb : ¬ (getEquipped c item.slot = some item ∨ item ∈ c.inventory) :=
    by push_neg; exact ⟨heq, hinv⟩
  have hg : ¬ c.gold < item.price := by omega
  have hmem : item ∈
      (recalculate_stats
        { c with inventory := insert item c.inventory,
                 gold := c.gold - item.price }).inventory := by
    rw [recalculate_stats_inventory]
    exact Finset.mem_insert_self _ _
  have hsell := sell_item_eq _ item hmem
  simp only [buy_item, if_neg hb, if_neg hg]
  refine ⟨_, _, rfl, hsell, ?_, ?_⟩
  · simp only [recalculate_stats_inventory]
    exact Finset.erase_insert hinv
  · simp only [recalculate_stats_gold, Item.sell_price]
    omega

/-- Witness for `buy_sell_roundtrip` on a character with just enough
gold. -/
theorem buy_sell_roundtrip_witness :
    (exampleWeapon.price ≤
        ({ attackerChar with gold := 10 } : Character).gold ∧
      exampleWeapon ∉
        ({ attackerChar with gold := 10 } : Character).inventory ∧
      getEquipped ({ attackerChar with gold := 10 } : Character)
          exampleWeapon.slot ≠ some exampleWeapon) ∧
    ∃ c1 c2,
      buy_item ({ attackerChar with gold := 10 } : Character)
          exampleWeapon = .ok c1 ∧
      sell_item c1 exampleWeapon = .ok c2 ∧
      c2.inventory =
        ({ attackerChar with gold := 10 } : Character).inventory ∧
      c2.gold = ({ attackerChar with gold := 10 } : Character).gold -
        (exampleWeapon.price - exampleWeapon.price / 2) :=
  ⟨⟨by decide, by decide, by decide⟩,
    (buy_sell_roundtrip ({ attackerChar with gold := 10 } : Character)
      exampleWeapon (by decide) (by decide) (by decide)).2⟩

/-- C9: for any character in which no equipped item is also in the
inventory (and whose slots are well-typed, as the data model enforces),
each of the four operations — whether it succeeds or fails with a
validation error — leaves a character that still satisfies the
mutual-exclusivity invariant. -/
theorem ops_preserve_exclusivity (c : Character) (item : Item)
    (hexcl : exclusiveEquipment c) (hslots : slotConsistent c) :
    exclusiveEquipment (afterOp c (equip_item c item)) ∧
    exclusiveEquipment (afterOp c (unequip_item c item)) ∧
    exclusiveEquipment (afterOp c (buy_item c item)) ∧
    exclusiveEquipment (afterOp c (sell_item c item)) := by
  refine ⟨?_, ?_, ?_, ?_⟩
  · simp only [equip_item]
    by_cases h1 : item ∉ c.inventory
    · rw [if_pos h1]
      exact hexcl
    · rw [if_neg h1]
      by_cases h2 : c.profession.id ∉ item.allowed_professions
      · rw [if_pos h2]
        exact hexcl
      · rw [if_neg h2]
        by_cases h3 : c.level < item.level_required
        · rw [if_pos h3]
          exact hexcl
        · rw [if_neg h3]
          rcases hprev : getEquipped c item.slot with _ | p <;>
            dsimp only [afterOp] <;>
            intro s i' hs <;>
            rw [recalculate_stats_getEquipped] at hs <;>
            rw [recalculate_stats_inventory, setEquipped_inventory] <;>
            by_cases hss : s = item.slot
          · subst hss
            rw [getEquipped_setEquipped_same] at hs
            obtain rfl : item = i' := by injection hs
            exact Finset.not_mem_erase _ _
          · rw [getEquipped_setEquipped_ne _ _ _ _ hss] at hs
            intro hmem
            exact hexcl s i'
              (by simpa [getEquipped_set_inventory] using hs)
              (Finset.mem_of_mem_erase hmem)
          · subst hss
            rw [getEquipped_setEquipped_same] at hs
            obtain rfl : item = i' := by injection hs
            exact Finset.not_mem_erase _ _
          · rw [getEquipped_setEquipped_ne _ _ _ _ hss] at hs
            rw [getEquipped_set_inventory] at hs
            intro hmem
            rcases Finset.mem_insert.1 (Finset.mem_of_mem_erase hmem)
              with rfl | hmem2
            · exact hss ((hslots s i' hs).symm.trans
                (hslots item.slot i' hprev))
            · exact hexcl s i' hs hmem2
  · simp only [unequip_item]
    by_cases h1 : some item ≠ getEquipped c item.slot
    · rw [if_pos h1]
      exact hexcl
    · rw [if_neg h1]
      dsimp only [afterOp]
      intro s i' hs
      rw [recalculate_stats_getEquipped] at hs
      rw [recalculate_stats_inventory, setEquipped_inventory]
      by_cases hss : s = item.slot
      · subst hss
        rw [getEquipped_setEquipped_same] at hs
        exact absurd hs (by simp)
      · rw [getEquipped_setEquipped_ne _ _ _ _ hss,
          getEquipped_set_inventory] at hs
        intro hmem
        rcases Finset.mem_insert.1 hmem with rfl | hmem2
        · exact hss (hslots s i' hs).symm
        · exact hexcl s i' hs hmem2
  · simp only [buy_item]
    by_cases h1 : getEquipped c item.slot = some item ∨ item ∈ c.inventory
    · rw [if_pos h1]
      exact hexcl
    · rw [if_neg h1]
      by_cases h2 : c.gold < item.price
      · rw [if_pos h2]
        exact hexcl
      · rw [if_neg h2]
        dsimp only [afterOp]
        push_neg at h1
        intro s i' hs
        rw [recalculate_stats_getEquipped,
          getEquipped_set_inventory_gold] at hs
        rw [recalculate_stats_inventory]
        intro hmem
        rcases Finset.mem_insert.1 hmem with rfl | hmem2
        · by_cases hss : s = i'.slot
          · subst hss
            exact h1.1 hs
          · exact hss (hslots s i' hs).symm
        · exact hexcl s i' hs hmem2
  · simp only [sell_item]
    by_cases h1 : item ∉ c.inventory
    · rw [if_pos h1]
      exact hexcl
    · rw [if_neg h1]
      dsimp only [afterOp]
      intro s i' hs
      rw [recalculate_stats_getEquipped,
        getEquipped_set_inventory_gold] at hs
      rw [recalculate_stats_inventory]
      intro hmem
      exact hexcl s i' hs (Finset.mem_of_mem_erase hmem)

/-- Witness for `ops_preserve_exclusivity` on a fixture character with
empty slots and empty inventory. -/
theorem ops_preserve_exclusivity_witness :
    exclusiveEquipment attackerChar ∧ slotConsistent attackerChar ∧
    exclusiveEquipment
      (afterOp attackerChar (equip_item attackerChar exampleWeapon)) :=
  have h1 : exclusiveEquipment attackerChar := fun s i h => by
    cases s <;> simp [getEquipped, attackerChar] at h
  have h2 : slotConsistent attackerChar := fun s i h => by
    cases s <;> simp [getEquipped, attackerChar] at h
  ⟨h1, h2, (ops_preserve_exclusivity attackerChar exampleWeapon h1 h2).1⟩

theorem mem_insertRanked {me x y : Character} {l : List Character} :
    x ∈ insertRanked me y l ↔ x = y ∨ x ∈ l := by
  induction l with
  | nil => simp [insertRanked]
  | cons z zs ih =>
    simp only [insertRanked]
    split
    · simp [List.mem_cons]
    · simp only [List.mem_cons, ih]
      tauto

theorem mem_sortByRank {me x : Character} {l : List Character} :
    x ∈ sortByRank me l ↔ x ∈ l := by
  induction l with
  | nil => simp [sortByRank]
  | cons z zs ih => simp [sortByRank, mem_insertRanked, ih]

theorem diffOf_le_25_of_eligible {me x : Character}
    (h : eligibleOpponent me x = true) : diffOf me x ≤ 25 := by
  simp only [eligibleOpponent, decide_eq_true_eq] at h
  simp only [diffOf]
  omega

theorem pool_diff_le_25 (me : Character) (pop : List Character) :
    ∀ x ∈ candidatePool me pop, diffOf me x ≤ 25 := by
  intro x hx
  have hx1 : x ∈ sortByRank me (pop.filter (eligibleOpponent me)) :=
    List.take_subset _ _ hx
  rw [mem_sortByRank] at hx1
  exact diffOf_le_25_of_eligible (List.of_mem_filter hx1)

theorem filter_diff_eq_zero (me : Character) (cand : List Character) :
    cand.filter (fun o => diffOf me o = 0) =
      cand.filter (fun o => diffOf me o ≤ 0) := by
  apply List.filter_congr
  intro x _
  simp [Nat.le_zero]

theorem length_filter_diff_le_succ (me : Character)
    (cand : List Character) (d : ℕ) :
    (cand.filter (fun o => diffOf me o ≤ d + 1)).length =
      (cand.filter (fun o => diffOf me o ≤ d)).length +
      (cand.filter (fun o => diffOf me o = d + 1)).length := by
  induction cand with
  | nil => simp
  | cons x xs ih =>
    by_cases h1 : diffOf me x ≤ d
    · have h2 : diffOf me x ≤ d + 1 := by omega
      have h3 : ¬ diffOf me x = d + 1 := by omega
      simp [List.filter_cons, h1, h2, h3, ih]
      omega
    · by_cases h2 : diffOf me x = d + 1
      · have h3 : diffOf me x ≤ d + 1 := by omega
        simp [List.filter_cons, h1, h2, h3, ih]
        omega
      · have h3 : ¬ diffOf me x ≤ d + 1 := by omega
        simp [List.filter_cons, h1, h2, h3, ih]

theorem filter_length_eq_all {p : Character → Bool} {l : List Character}
    (h : (l.filter p).length = l.length) : ∀ x ∈ l, p x = true := by
  induction l with
  | nil => simp
  | cons x xs ih =>
    cases hp : p x
    · exfalso
      rw [List.filter_cons, hp] at h
      simp only [if_false, Bool.false_eq_true, List.length_cons] at h
      have := List.length_filter_le p xs
      omega
    · rw [List.filter_cons, hp] at h
      simp only [if_true, List.length_cons] at h
      intro y hy
      rcases List.mem_cons.1 hy with rfl | hy2
      · exact hp
      · exact ih (by omega) y hy2

/-- Postcondition of the bucket-expansion loop: starting from the
buckets up to difference `d` with enough fuel to reach difference 25, the
loop returns exactly the buckets up to some difference `D ≥ d`, and it
stops only once it holds at least 3 opponents or all candidates. -/
theorem expandBuckets_spec (me : Character) (cand : List Character)
    (hdiff : ∀ x ∈ cand, diffOf me x ≤ 25) :
    ∀ (fuel d : ℕ) (opp : List Character),
      25 ≤ d + fuel →
      opp.length = (cand.filter (fun o => diffOf me o ≤ d)).length →
      (∀ x, x ∈ opp ↔ x ∈ cand ∧ diffOf me x ≤ d) →
      ∃ D, d ≤ D ∧
        (expandBuckets me cand fuel opp d).length =
          (cand.filter (fun o => diffOf me o ≤ D)).length ∧
        (∀ x, x ∈ expandBuckets me cand fuel opp d ↔
            x ∈ cand ∧ diffOf me x ≤ D) ∧
        (3 ≤ (expandBuckets me cand fuel opp d).length ∨
          (expandBuckets me cand fuel opp d).length = cand.length) := by
  intro fuel
  induction fuel with
  | zero =>
    intro d opp hfuel hlen hmem
    have hall : cand.filter (fun o => diffOf me o ≤ d) = cand :=
      List.filter_eq_self.mpr (fun x hx => by
        simp only [decide_eq_true_eq]
        exact le_trans (hdiff x hx) (by omega))
    refine ⟨d, le_refl _, hlen, hmem, Or.inr ?_⟩
    simp only [expandBuckets]
    rw [hlen, hall]
  | succ fuel ih =>
    intro d opp hfuel hlen hmem
    simp only [expandBuckets]
    split
    · rename_i hcond
      have hlen2 :
          (opp ++ cand.filter (fun o => diffOf me o = d + 1)).length =
            (cand.filter (fun o => diffOf me o ≤ d + 1)).length := by
        rw [List.length_append, hlen, length_filter_diff_le_succ]
      have hmem2 : ∀ x,
          x ∈ opp ++ cand.filter (fun o => diffOf me o = d + 1) ↔
            x ∈ cand ∧ diffOf me x ≤ d + 1 := by
        intro x
        rw [List.mem_append, hmem, List.mem_filter]
        simp only [decide_eq_true_eq]
        constructor
        · rintro (⟨hc, hle⟩ | ⟨hc, heq⟩)
          · exact ⟨hc, by omega⟩
          · exact ⟨hc, by omega⟩
        · rintro ⟨hc, hle⟩
          by_cases hle2 : diffOf me x ≤ d
          · exact Or.inl ⟨hc, hle2⟩
          · exact Or.inr ⟨hc, by omega⟩
      obtain ⟨D, hD, h1, h2, h3⟩ := ih (d + 1) _ (by omega) hlen2 hmem2
      exact ⟨D, by omega, h1, h2, h3⟩
    · rename_i hcond
      refine ⟨d, le_refl _, hlen, hmem, ?_⟩
      by_cases h3 : 3 ≤ opp.length
      · exact Or.inl h3
      · right
        have hle : opp.length ≤ cand.length := by
          rw [hlen]
          exact List.length_filter_le _ _
        have hnotlt : ¬ opp.length < cand.length :=
          fun hlt => hcond ⟨by omega, hlt⟩
        omega

/-- C4: the matchmaker builds its candidate pool by filtering to the
±25-level window and other owners, ranking by `(diff, level)` and capping
at 10, then returns whole difference-buckets from difference 0 upward
until at least 3 opponents are collected or the pool is exhausted: the
result is empty when the pool is, equals the whole pool when the pool has
fewer than 3 members, always includes every pool member whose difference
is at most that of any returned member (whole-bucket inclusion), and has
at least 3 members whenever the pool does. -/
theorem matchmaker_buckets (me : Character) (pop : List Character) :
    (candidatePool me pop = [] → get_opponents me pop = []) ∧
    (∀ x ∈ get_opponents me pop, x ∈ candidatePool me pop) ∧
    (∀ x ∈ get_opponents me pop, ∀ y ∈ candidatePool me pop,
        diffOf me y ≤ diffOf me x → y ∈ get_opponents me pop) ∧
    ((candidatePool me pop).length < 3 →
      (get_opponents me pop).length = (candidatePool me pop).length ∧
      ∀ x, x ∈ get_opponents me pop ↔ x ∈ candidatePool me pop) ∧
    (3 ≤ (candidatePool me pop).length →
      3 ≤ (get_opponents me pop).length) := by
  by_cases hempty : candidatePool me pop = []
  · have hres : get_opponents me pop = [] := by
      simp [get_opponents, hempty]
    rw [hres, hempty]
    simp
  · have hres : get_opponents me pop =
        expandBuckets me (candidatePool me pop) 26
          ((candidatePool me pop).filter (fun o => diffOf me o = 0)) 0 := by
      simp [get_opponents, hempty]
    have hdiff := pool_diff_le_25 me pop
    have hlen0 :
        ((candidatePool me pop).filter (fun o => diffOf me o = 0)).length =
          ((candidatePool me pop).filter
            (fun o => diffOf me o ≤ 0)).length := by
      rw [filter_diff_eq_zero]
    have hmem0 : ∀ x,
        x ∈ (candidatePool me pop).filter (fun o => diffOf me o = 0) ↔
          x ∈ candidatePool me pop ∧ diffOf me x ≤ 0 := by
      intro x
      rw [filter_diff_eq_zero]
      simp [List.mem_filter]
    obtain ⟨D, hD0, hlen, hmem, hexit⟩ :=
      expandBuckets_spec me (candidatePool me pop) hdiff 26 0 _
        (by omega) hlen0 hmem0
    rw [hres]
    have hsub : (expandBuckets me (candidatePool me pop) 26
        ((candidatePool me pop).filter (fun o => diffOf me o = 0))
        0).length ≤ (candidatePool me pop).length := by
      rw [hlen]
      exact List.length_filter_le _ _
    refine ⟨fun h => absurd h hempty, ?_, ?_, ?_, ?_⟩
    · intro x hx
      exact ((hmem x).1 hx).1
    · intro x hx y hy hle
      exact (hmem y).2 ⟨hy, le_trans hle ((hmem x).1 hx).2⟩
    · intro hlt
      rcases hexit with h3 | heq
      · omega
      · refine ⟨heq, fun x =>
          ⟨fun hx => ((hmem x).1 hx).1, fun hx => ?_⟩⟩
        have hever : ∀ z ∈ candidatePool me pop,
            (fun o => decide (diffOf me o ≤ D)) z = true :=
          filter_length_eq_all (by omega)
        exact (hmem x).2 ⟨hx, by simpa using hever x hx⟩
    · intro h3
      rcases hexit with h | h
      · exact h
      · omega

/-- The matchmaking initiator: owner 1, level 5. -/
def matchMe : Character where
  id := 10
  owner := 1
  race := neutralRace
  profession := exampleProfession
  level := 5
  current_exp := 0
  gold := 0
  damage := 1
  health := 100
  protection := 1
  equipped_weapon := none
  equipped_armor := none
  equipped_accessory := none
  inventory := ∅

/-- A level-5 opponent of another player. -/
def enemyA : Character :=
  { matchMe with id := 11, owner := 2, level := 5 }

/-- A level-7 opponent of another player. -/
def enemyB : Character :=
  { matchMe with id := 12, owner := 2, level := 7 }

/-- A sample character table: the initiator and two enemy characters. -/
def samplePop : List Character := [matchMe, enemyA, enemyB]

/-- Witness for `matchmaker_buckets`: with only two candidates in the
window, the matchmaker returns both. -/
theorem matchmaker_buckets_witness :
    (candidatePool matchMe samplePop).length < 3 ∧
    (get_opponents matchMe samplePop).length =
      (candidatePool matchMe samplePop).length :=
  ⟨by decide,
    ((matchmaker_buckets matchMe samplePop).2.2.2.1 (by decide)).1⟩

/-- C10: a character created with the field defaults has its weapon slot
holding the `Item` row with primary key 1 — not empty — while the armor
and accessory slots default to empty; the default weapon is not in the
inventory, costs nothing (gold stays at its default 0), and its bonus is
counted in the derived damage computed on creation. -/
theorem default_weapon_on_creation (pk owner : ℕ) (race : Race)
    (profession : Profession) (item1 : Item) :
    (createdCharacter pk owner race profession item1).equipped_weapon =
      some item1 ∧
    (createdCharacter pk owner race profession item1).equipped_weapon ≠
      none ∧
    (createdCharacter pk owner race profession item1).equipped_armor =
      none ∧
    (createdCharacter pk owner race profession item1).equipped_accessory =
      none ∧
    item1 ∉ (createdCharacter pk owner race profession item1).inventory ∧
    (createdCharacter pk owner race profession item1).gold = 0 ∧
    (createdCharacter pk owner race profession item1).damage =
      roundHalfEven (((profession.damage_base : ℚ) + 1 * (5 / 10) +
        (item1.bonus_damage : ℚ)) * race.damage_modifier) := by
  refine ⟨rfl, by simp [createdCharacter, recalculate_stats_weapon,
    newCharacter], rfl, rfl, ?_, rfl, ?_⟩
  · rw [createdCharacter, recalculate_stats_inventory]
    exact Finset.not_mem_empty _
  · rw [createdCharacter,
      (recalculate_stats_formula (newCharacter pk owner race profession
        item1)).1]
    simp only [specFormulaDamage, presentBonus, newCharacter,
      List.filterMap_cons, List.filterMap_nil, id, List.map_cons,
      List.map_nil, List.sum_cons, List.sum_nil]
    congr 1

